import Mathlib

/-!
Shallow embedding of the "escape the forgotten temple" game engine
(src/room.rs, src/player.rs, src/input.rs, src/game.rs).

Rust `HashMap<String, Room>` is modelled as an association list in
insertion order; `HashMap<Direction, String>` likewise.  Rust
`to_lowercase` is modelled on the ASCII fragment (the only characters the
game ever compares).
-/

set_option maxRecDepth 10000

namespace Temple

/-- ASCII lowercasing of one character, as Rust `to_lowercase` acts on the
ASCII characters used by this game. -/
def charLower (c : Char) : Char :=
  if 65 ≤ c.toNat ∧ c.toNat ≤ 90 then Char.ofNat (c.toNat + 32) else c

/-- Lowercase a string (models Rust `str::to_lowercase` on ASCII data). -/
def sToLower (s : String) : String :=
  String.mk (s.data.map charLower)

/-- Models Rust `str::trim`: strip leading and trailing whitespace. -/
def strTrim (s : String) : String :=
  String.mk (((s.data.dropWhile Char.isWhitespace).reverse.dropWhile Char.isWhitespace).reverse)

inductive Direction where
  | north | east | south | west
deriving DecidableEq, Repr

/-- Models `Direction::from_string`. -/
def Direction.fromString (s : String) : Option Direction :=
  match sToLower s with
  | "north" => some .north
  | "east" => some .east
  | "south" => some .south
  | "west" => some .west
  | _ => none

/-- Models `Direction::to_string`. -/
def Direction.toText : Direction → String
  | .north => "north"
  | .east => "east"
  | .south => "south"
  | .west => "west"

structure Room where
  name : String
  description : String
  exits : List (Direction × String)
  items : List String
  is_exit : Bool
  required_item : Option String
deriving DecidableEq, Repr

/-- Models `Room::remove_item`: find the position of the first
case-insensitive match and remove it; `none` when no match. -/
def removeFirst (items : List String) (item : String) : Option (List String) :=
  match items with
  | [] => none
  | i :: rest =>
      if sToLower i = sToLower item then some rest
      else (removeFirst rest item).map (i :: ·)

structure Player where
  location : String
  inventory : List String
deriving DecidableEq, Repr

/-- Models `Player::has_item`: case-insensitive membership test. -/
def hasItem (p : Player) (item : String) : Bool :=
  p.inventory.any (fun i => sToLower i == sToLower item)

/-- Models `Player::display_inventory`. -/
def displayInventory (p : Player) : String :=
  if p.inventory.isEmpty then "Your inventory is empty."
  else "You are carrying:\n" ++ String.join (p.inventory.map (fun i => "- " ++ i ++ "\n"))

inductive Command where
  | go (d : Direction)
  | take (item : String)
  | use (item : String)
  | inventory
  | look
  | help
  | quit
  | unknown (input : String)
deriving DecidableEq, Repr

structure Game where
  rooms : List (String × Room)
  player : Player
  game_over : Bool
  message : String
deriving DecidableEq, Repr

/-- Association-list lookup, modelling `HashMap::get` on the rooms map. -/
def lookupRoom (rooms : List (String × Room)) (name : String) : Option Room :=
  (rooms.find? (fun p => p.1 == name)).map (·.2)

/-- Replace the room stored under `name`, modelling mutation through
`HashMap::get_mut` (keys in the fixture are unique). -/
def updateRoom (rooms : List (String × Room)) (name : String) (r : Room) :
    List (String × Room) :=
  rooms.map (fun p => if p.1 == name then (p.1, r) else p)

/-- Association-list lookup on a room's exits map. -/
def lookupExit (exits : List (Direction × String)) (d : Direction) : Option String :=
  (exits.find? (fun e => e.1 == d)).map (·.2)

/-- Models `create_rooms` in src/room.rs: the fixed six-room fixture. -/
def createRooms : List (String × Room) :=
  [ ("Entrance Hall",
     { name := "Entrance Hall"
       description := "You stand in the grand entrance hall of the forgotten temple. Ancient symbols cover the walls, and dust particles dance in the beams of light from cracks in the ceiling. The air is thick with the scent of ages past."
       exits := [(.north, "Ceremonial Antechamber"), (.east, "Ancient Crypt")]
       items := ["ancient map"]
       is_exit := false
       required_item := none }),
    ("Ceremonial Antechamber",
     { name := "Ceremonial Antechamber"
       description := "This room seems to have been used for pre-ritual preparations. Stone benches line the walls, and faded murals depict priests donning ceremonial garb. A stone altar stands in the center, its surface stained dark from ancient offerings."
       exits := [(.south, "Entrance Hall"), (.east, "Treasure Room"), (.west, "Guardian Chamber")]
       items := ["ceremonial dagger"]
       is_exit := false
       required_item := none }),
    ("Treasure Room",
     { name := "Treasure Room"
       description := "Glinting gold and artifacts fill this small chamber. Ceremonial masks, jeweled daggers, and strange artifacts cover every surface. Despite the wealth displayed here, an ornate stone pedestal in the center stands empty, with a small inscription that reads 'Place the sacred idol to reveal the path.'"
       exits := [(.west, "Ceremonial Antechamber"), (.north, "Temple Exit")]
       items := []
       is_exit := false
       required_item := none }),
    ("Guardian Chamber",
     { name := "Guardian Chamber"
       description := "This circular chamber is dominated by a massive stone statue of a seated deity with many arms. Its hollow eyes seem to follow your movement. At its feet lies a small golden idol, gleaming despite the layer of dust covering it."
       exits := [(.east, "Ceremonial Antechamber")]
       items := ["golden idol"]
       is_exit := false
       required_item := none }),
    ("Ancient Crypt",
     { name := "Ancient Crypt"
       description := "The air is stale in this dark crypt. Stone sarcophagi line the walls, their carved lids depicting the deceased in repose. A faded tapestry on the far wall shows a map of the stars."
       exits := [(.west, "Entrance Hall")]
       items := ["torch"]
       is_exit := false
       required_item := none }),
    ("Temple Exit",
     { name := "Temple Exit"
       description := "Sunlight streams through a crack in the stone wall, illuminating a narrow passage. This appears to be an exit from the temple, but heavy stone doors block the way. There's a keyhole shaped like an idol in the center of the doors."
       exits := [(.south, "Treasure Room")]
       items := []
       is_exit := true
       required_item := some "golden idol" }) ]

/-- Models `Game::new`. -/
def Game.new : Game :=
  { rooms := createRooms
    player := { location := "Entrance Hall", inventory := [] }
    game_over := false
    message := "" }

/-- Models `Game::check_win_condition`: sets only the transient message. -/
def checkWinCondition (g : Game) : Game :=
  match lookupRoom g.rooms g.player.location with
  | some r =>
      if r.is_exit then
        match r.required_item with
        | some req =>
            if hasItem g.player req then
              { g with message :=
                  "You've reached the exit with the " ++ req ++ "! Use the item to escape." }
            else
              { g with message :=
                  "This appears to be an exit, but it's blocked. You need a " ++ req ++ " to proceed." }
        | none => g
      else g
  | none => g

/-- Models `Game::look_around`. -/
def lookAround (g : Game) : String :=
  match lookupRoom g.rooms g.player.location with
  | some r =>
      let d1 := "[ " ++ r.name ++ " ]\n\n" ++ r.description ++ "\n"
      let d2 := if r.exits.isEmpty then d1
                else d1 ++ "\nExits:" ++ String.join (r.exits.map (fun e => " " ++ e.1.toText))
      let d3 := if r.items.isEmpty then d2
                else d2 ++ "\n\nYou see:" ++ String.join (r.items.map (fun i => "\n- " ++ i))
      if g.message.isEmpty then d3 else d3 ++ "\n\n" ++ g.message
  | none => "Error: Current room not found."

/-- Models `Game::handle_go`. -/
def handleGo (g : Game) (d : Direction) : String × Game :=
  match lookupRoom g.rooms g.player.location with
  | some r =>
      match lookupExit r.exits d with
      | some target =>
          let g1 := { g with player := { g.player with location := target } }
          let g2 := checkWinCondition g1
          (lookAround g2, g2)
      | none => ("You can't go " ++ d.toText ++ " from here.", g)
  | none => ("Error: Current room not found.", g)

/-- Models `Game::handle_take`. -/
def handleTake (g : Game) (item : String) : String × Game :=
  match lookupRoom g.rooms g.player.location with
  | some r =>
      match removeFirst r.items item with
      | some newItems =>
          ("You take the " ++ item ++ ".",
           { g with
               rooms := updateRoom g.rooms g.player.location { r with items := newItems }
               player := { g.player with inventory := g.player.inventory ++ [item] } })
      | none => ("There is no " ++ item ++ " here.", g)
  | none => ("Error: Current room not found.", g)

/-- Models `Game::handle_use` (the dispatch on the item is a verbatim
string match, exactly as the Rust `match` patterns are). -/
def handleUse (g : Game) (item : String) : String × Game :=
  if hasItem g.player item then
    match lookupRoom g.rooms g.player.location with
    | some r =>
        if r.name = "Temple Exit" ∧ item = "golden idol" then
          ("You place the golden idol in the keyhole. With a rumble, the stone doors slowly open, revealing the path to freedom. Sunlight streams in, blinding you momentarily. \n\nCongratulations! You have escaped the forgotten temple!",
           { g with game_over := true })
        else if r.name = "Ancient Crypt" ∧ item = "torch" then
          ("You light the torch. The crypt is now illuminated, revealing ancient inscriptions on the walls that were previously hidden in darkness.", g)
        else if r.name = "Entrance Hall" ∧ item = "ancient map" then
          ("You examine the ancient map. It shows the layout of the temple, confirming your suspicions about the locations of the rooms. The exit appears to be north of the Treasure Room.", g)
        else if r.name = "Ceremonial Antechamber" ∧ item = "ceremonial dagger" then
          ("You place the ceremonial dagger on the altar. Nothing happens, but you feel a sense of respect for the ancient rituals once performed here.", g)
        else ("You can't use the " ++ item ++ " here.", g)
    | none => ("Error: Current room not found.", g)
  else ("You don't have a " ++ item ++ ".", g)

/-- Models `Game::display_help`. -/
def helpText : String :=
  "Available commands:\n- go [direction]: Move in the specified direction (north, east, south, west)\n- take [item]: Pick up an item\n- use [item]: Use an item from your inventory\n- look: Look around the current room\n- inventory: Check your inventory\n- help: Display this help text\n- quit: Exit the game"

/-- Models `Game::process_command`: result string plus updated state. -/
def processCommand (g : Game) (c : Command) : String × Game :=
  match c with
  | .go d => handleGo g d
  | .take item => handleTake g item
  | .use item => handleUse g item
  | .inventory => (displayInventory g.player, g)
  | .look => (lookAround g, g)
  | .help => (helpText, g)
  | .quit => ("Thanks for playing! Goodbye.", { g with game_over := true })
  | .unknown input =>
      ("I don't understand '" ++ input ++ "'.\nType 'help' for a list of commands.", g)

/-- Apply a whole command sequence, threading the state. -/
def applyAll (cs : List Command) (g : Game) : Game :=
  cs.foldl (fun g c => (processCommand g c).2) g

/-- Keys of the fixture map, in insertion order. -/
def roomNames : List String :=
  ["Entrance Hall", "Ceremonial Antechamber", "Treasure Room",
   "Guardian Chamber", "Ancient Crypt", "Temple Exit"]

/-- Well-formedness invariant established by `Game.new` and preserved by
every command: the rooms map has exactly the fixture's keys, each room is
stored under its own name, every exit target is a key, and the player's
location is a key. -/
def StateOk (g : Game) : Prop :=
  g.rooms.map Prod.fst = roomNames ∧
  (∀ p ∈ g.rooms, (p : String × Room).2.name = p.1) ∧
  (∀ p ∈ g.rooms, ∀ e ∈ (p : String × Room).2.exits, (e : Direction × String).2 ∈ roomNames) ∧
  g.player.location ∈ roomNames

instance : DecidablePred StateOk := fun g => by
  unfold StateOk; infer_instance

theorem lookupRoom_mem {rooms : List (String × Room)} {loc : String} {r : Room}
    (h : lookupRoom rooms loc = some r) : (loc, r) ∈ rooms := by
  unfold lookupRoom at h
  cases hf : rooms.find? (fun p => p.1 == loc) with
  | none => simp [hf] at h
  | some p =>
      simp only [hf, Option.map_some', Option.some.injEq] at h
      have hm := List.mem_of_find?_eq_some hf
      have hp := List.find?_some hf
      simp only [beq_iff_eq] at hp
      have : (loc, r) = p := by
        cases p with
        | mk a b => simp_all
      rw [this]; exact hm

theorem lookupRoom_isSome_of_mem {rooms : List (String × Room)} {loc : String}
    (h : loc ∈ rooms.map Prod.fst) : ∃ r, lookupRoom rooms loc = some r := by
  rcases List.mem_map.1 h with ⟨p, hp, he⟩
  unfold lookupRoom
  cases hf : rooms.find? (fun q => q.1 == loc) with
  | none =>
      have := List.find?_eq_none.1 hf p hp
      simp [he] at this
  | some q => exact ⟨q.2, by simp⟩

theorem lookupExit_mem {exits : List (Direction × String)} {d : Direction} {t : String}
    (h : lookupExit exits d = some t) : (d, t) ∈ exits := by
  unfold lookupExit at h
  cases hf : exits.find? (fun e => e.1 == d) with
  | none => simp [hf] at h
  | some e =>
      simp only [hf, Option.map_some', Option.some.injEq] at h
      have hm := List.mem_of_find?_eq_some hf
      have hp := List.find?_some hf
      simp only [beq_iff_eq] at hp
      have : (d, t) = e := by
        cases e with
        | mk a b => simp_all
      rw [this]; exact hm

theorem updateRoom_map_fst (rooms : List (String × Room)) (n : String) (r : Room) :
    (updateRoom rooms n r).map Prod.fst = rooms.map Prod.fst := by
  induction rooms with
  | nil => rfl
  | cons p ps ih =>
      unfold updateRoom at ih ⊢
      simp only [List.map_cons]
      rw [ih]
      by_cases hp : p.1 == n <;> simp [hp]

theorem updateRoom_mem {rooms : List (String × Room)} {n : String} {r : Room}
    {p : String × Room} (h : p ∈ updateRoom rooms n r) :
    p ∈ rooms ∨ (p.1 = n ∧ p.2 = r ∧ ∃ q ∈ rooms, (q : String × Room).1 = n) := by
  unfold updateRoom at h
  rcases List.mem_map.1 h with ⟨q, hq, he⟩
  by_cases hqn : q.1 == n
  · right
    simp only [hqn, if_true] at he
    have hq1 : q.1 = n := by simpa using hqn
    exact ⟨by rw [← he]; exact hq1, by rw [← he], ⟨q, hq, hq1⟩⟩
  · left
    simp only [hqn, if_false] at he
    rw [← he]; exact hq

theorem checkWin_rooms_player (g : Game) :
    (checkWinCondition g).rooms = g.rooms ∧ (checkWinCondition g).player = g.player := by
  unfold checkWinCondition
  repeat' split
  all_goals exact ⟨rfl, rfl⟩

theorem handleUse_frame (g : Game) (item : String) :
    ((handleUse g item).2).rooms = g.rooms ∧ ((handleUse g item).2).player = g.player ∧
      ((handleUse g item).2).message = g.message := by
  unfold handleUse
  repeat' split
  all_goals exact ⟨rfl, rfl, rfl⟩

theorem stateOk_processCommand {g : Game} (c : Command) (h : StateOk g) :
    StateOk (processCommand g c).2 := by
  obtain ⟨hkeys, hnames, hexits, hloc⟩ := h
  cases c with
  | go d =>
      simp only [processCommand, handleGo]
      split
      next r hr =>
        split
        next target he =>
          have hmem : (g.player.location, r) ∈ g.rooms := lookupRoom_mem hr
          have htmem : (d, target) ∈ r.exits := lookupExit_mem he
          have htarget : target ∈ roomNames := hexits _ hmem _ htmem
          have hcw := checkWin_rooms_player
            { g with player := { g.player with location := target } }
          refine ⟨?_, ?_, ?_, ?_⟩
          · rw [hcw.1]; exact hkeys
          · rw [hcw.1]; exact hnames
          · rw [hcw.1]; exact hexits
          · rw [hcw.2]; exact htarget
        next he => exact ⟨hkeys, hnames, hexits, hloc⟩
      next hr => exact ⟨hkeys, hnames, hexits, hloc⟩
  | take item =>
      simp only [processCommand, handleTake]
      split
      next r hr =>
        split
        next newItems hrm =>
          have hmem : (g.player.location, r) ∈ g.rooms := lookupRoom_mem hr
          have hrname : r.name = g.player.location := hnames _ hmem
          refine ⟨?_, ?_, ?_, hloc⟩
          · rw [updateRoom_map_fst]; exact hkeys
          · intro p hp
            rcases updateRoom_mem hp with hin | ⟨h1, h2, _⟩
            · exact hnames _ hin
            · rw [h1, h2]; exact hrname
          · intro p hp e hee
            rcases updateRoom_mem hp with hin | ⟨_, h2, _⟩
            · exact hexits _ hin _ hee
            · rw [h2] at hee
              exact hexits _ hmem _ hee
        next hrm => exact ⟨hkeys, hnames, hexits, hloc⟩
      next hr => exact ⟨hkeys, hnames, hexits, hloc⟩
  | use item =>
      have hf := handleUse_frame g item
      simp only [processCommand]
      refine ⟨?_, ?_, ?_, ?_⟩
      · rw [hf.1]; exact hkeys
      · rw [hf.1]; exact hnames
      · rw [hf.1]; exact hexits
      · rw [hf.2.1]; exact hloc
  | inventory => exact ⟨hkeys, hnames, hexits, hloc⟩
  | look => exact ⟨hkeys, hnames, hexits, hloc⟩
  | help => exact ⟨hkeys, hnames, hexits, hloc⟩
  | quit => exact ⟨hkeys, hnames, hexits, hloc⟩
  | unknown input => exact ⟨hkeys, hnames, hexits, hloc⟩

theorem stateOk_new : StateOk Game.new := by decide

theorem stateOk_applyAll (cs : List Command) {g : Game} (h : StateOk g) :
    StateOk (applyAll cs g) := by
  induction cs generalizing g with
  | nil => exact h
  | cons c cs ih => exact ih (stateOk_processCommand c h)

/-- C9: Look is a pure read of the game state: processing Look leaves the
state unchanged, so two consecutive Look commands with no intervening
mutation return identical strings. -/
theorem c9_look_pure (g : Game) :
    (processCommand g .look).2 = g ∧
      (processCommand ((processCommand g .look).2) .look).1 = (processCommand g .look).1 :=
  ⟨rfl, rfl⟩

/-- C8: processing Use(x) never mutates the player (so neither inventory
nor location) nor the rooms map (so no room's item list): items are not
consumed by use. -/
theorem c8_use_frame (g : Game) (x : String) :
    ((processCommand g (.use x)).2).player = g.player ∧
      ((processCommand g (.use x)).2).rooms = g.rooms :=
  ⟨(handleUse_frame g x).2.1, (handleUse_frame g x).1⟩

/-- C7: Use(x) when x is not in the inventory (case-insensitively) returns
the "don't have" message and leaves the entire game state unchanged,
regardless of the current room. -/
theorem c7_use_without_item (g : Game) (x : String) (h : hasItem g.player x = false) :
    processCommand g (.use x) = ("You don't have a " ++ x ++ ".", g) := by
  simp only [processCommand, handleUse, h]
  simp

theorem c7_witness : processCommand Game.new (.use "torch") =
    ("You don't have a " ++ "torch" ++ ".", Game.new) :=
  c7_use_without_item Game.new "torch" (by decide)

/-- C5: Go(d) when d is not an exit of the current room returns the
"can't go" message and leaves the entire game state unchanged. -/
theorem c5_go_invalid (g : Game) (d : Direction) (r : Room)
    (hr : lookupRoom g.rooms g.player.location = some r)
    (he : lookupExit r.exits d = none) :
    processCommand g (.go d) = ("You can't go " ++ d.toText ++ " from here.", g) := by
  simp only [processCommand, handleGo, hr, he]

theorem c5_witness : processCommand Game.new (.go .south) =
    ("You can't go " ++ Direction.toText .south ++ " from here.", Game.new) :=
  c5_go_invalid Game.new .south (createRooms.get ⟨0, by decide⟩).2 (by decide) (by decide)

theorem exists_suffix_append {a z : String} (h : ∃ t, z = a ++ t) (x : String) :
    ∃ t, z ++ x = a ++ t := by
  rcases h with ⟨t, rfl⟩
  exact ⟨t ++ x, String.append_assoc a t x⟩

theorem lookAround_shape (g : Game) (r : Room)
    (hr : lookupRoom g.rooms g.player.location = some r) :
    ∃ post, lookAround g = ("[ " ++ r.name) ++ post := by
  unfold lookAround
  split
  next r2 hr2 =>
    rw [hr] at hr2
    obtain rfl := Option.some.inj hr2
    repeat' split
    all_goals exact ⟨_, by simp only [String.append_assoc]; rfl⟩
  next hr2 => rw [hr] at hr2; cases hr2

/-- State reached by a successful move to `target` (location update
followed by the win-condition check), as performed by `handle_go`. -/
def afterMove (g : Game) (target : String) : Game :=
  checkWinCondition { g with player := { g.player with location := target } }

theorem afterMove_rooms (g : Game) (t : String) : (afterMove g t).rooms = g.rooms :=
  (checkWin_rooms_player _).1

theorem afterMove_location (g : Game) (t : String) : (afterMove g t).player.location = t := by
  unfold afterMove
  rw [(checkWin_rooms_player _).2]

theorem handleGo_success {g : Game} {d : Direction} {r : Room} {target : String}
    (hr : lookupRoom g.rooms g.player.location = some r)
    (he : lookupExit r.exits d = some target) :
    processCommand g (.go d) = (lookAround (afterMove g target), afterMove g target) := by
  simp only [processCommand, handleGo, hr, he]
  rfl

/-- C4: Go(d) when d is an exit of the current room moves the player to
exactly the mapped target room and returns text containing the target
room's name. -/
theorem c4_go_valid (g : Game) (d : Direction) (r : Room) (target : String)
    (hok : StateOk g)
    (hr : lookupRoom g.rooms g.player.location = some r)
    (he : lookupExit r.exits d = some target) :
    ((processCommand g (.go d)).2).player.location = target ∧
      ∃ pre post, (processCommand g (.go d)).1 = pre ++ target ++ post := by
  obtain ⟨hkeys, hnames, hexits, hloc⟩ := hok
  have hmem := lookupRoom_mem hr
  have htmem := lookupExit_mem he
  have htarget : target ∈ roomNames := hexits _ hmem _ htmem
  rw [handleGo_success hr he]
  dsimp only
  refine ⟨afterMove_location g target, ?_⟩
  have hmm : (afterMove g target).player.location ∈ (afterMove g target).rooms.map Prod.fst := by
    rw [afterMove_rooms, afterMove_location, hkeys]; exact htarget
  obtain ⟨r2, hr2⟩ := lookupRoom_isSome_of_mem hmm
  have hmem2 := lookupRoom_mem hr2
  rw [afterMove_rooms, afterMove_location] at hmem2
  have hname2 : r2.name = target := hnames _ hmem2
  obtain ⟨post, hpost⟩ := lookAround_shape _ _ hr2
  exact ⟨"[ ", post, by rw [hpost, hname2]⟩

theorem c4_witness :
    ((processCommand Game.new (.go .north)).2).player.location = "Ceremonial Antechamber" :=
  (c4_go_valid Game.new .north (createRooms.get ⟨0, by decide⟩).2 "Ceremonial Antechamber"
    (by decide) (by decide) (by decide)).1

theorem checkWin_game_over (g : Game) : (checkWinCondition g).game_over = g.game_over := by
  unfold checkWinCondition
  repeat' split
  all_goals rfl

theorem handleGo_game_over (g : Game) (d : Direction) :
    ((handleGo g d).2).game_over = g.game_over := by
  unfold handleGo
  split
  next r hr =>
    split
    next target he => exact checkWin_game_over _
    next he => rfl
  next => rfl

theorem handleTake_game_over (g : Game) (item : String) :
    ((handleTake g item).2).game_over = g.game_over := by
  unfold handleTake
  repeat' split
  all_goals rfl

/-- C1: the terminal flag turns true only via Quit or via Use("golden idol")
while the location is "Temple Exit" with the idol in inventory; all other
commands leave it as it was, and once true it stays true. -/
theorem c1_terminal_flag (g : Game) (c : Command) (hok : StateOk g) :
    ((processCommand g c).2.game_over = true ↔
      (g.game_over = true ∨ c = .quit ∨
        (c = .use "golden idol" ∧ g.player.location = "Temple Exit" ∧
          hasItem g.player "golden idol" = true))) := by
  obtain ⟨hkeys, hnames, hexits, hloc⟩ := hok
  cases c with
  | go d =>
      simp only [processCommand]
      rw [handleGo_game_over]
      simp
  | take item =>
      simp only [processCommand]
      rw [handleTake_game_over]
      simp
  | use item =>
      obtain ⟨r0, hr0⟩ := lookupRoom_isSome_of_mem
        (show g.player.location ∈ g.rooms.map Prod.fst by rw [hkeys]; exact hloc)
      have hr0name : r0.name = g.player.location := hnames _ (lookupRoom_mem hr0)
      simp only [processCommand, handleUse]
      by_cases hhas : hasItem g.player item = true
      · simp only [hhas, if_true, hr0]
        by_cases hcond : r0.name = "Temple Exit" ∧ item = "golden idol"
        · rw [if_pos hcond]
          dsimp only
          constructor
          · intro _
            refine Or.inr (Or.inr ⟨by rw [hcond.2], ?_, ?_⟩)
            · rw [← hr0name]; exact hcond.1
            · rw [← hcond.2]; exact hhas
          · intro _; rfl
        · rw [if_neg hcond]
          split_ifs with h2 h3 h4 <;>
            ( dsimp only
              constructor
              · exact Or.inl
              · rintro (h | h | ⟨hx, hl, hi⟩)
                · exact h
                · exact h.elim
                · exfalso
                  apply hcond
                  have hitem : item = "golden idol" := by injection hx
                  exact ⟨by rw [hr0name, hl], hitem⟩ )
      · rw [if_neg hhas]
        dsimp only
        constructor
        · exact Or.inl
        · rintro (h | h | ⟨hx, hl, hi⟩)
          · exact h
          · exact Command.noConfusion h
          · exfalso
            apply hhas
            have hitem : item = "golden idol" := by injection hx
            rw [hitem]
            exact hi
  | inventory => simp [processCommand]
  | look => simp [processCommand]
  | help => simp [processCommand]
  | quit => simp [processCommand]
  | unknown input => simp [processCommand]

theorem c1_witness : (processCommand Game.new .quit).2.game_over = true :=
  (c1_terminal_flag Game.new .quit (by decide)).mpr (Or.inr (Or.inl rfl))

theorem cons_data_append (p x : String) {c : Char} {rest : List Char}
    (hp : p.data = c :: rest) : (p ++ x).data = c :: (rest ++ x.data) := by
  rw [String.data_append, hp]; rfl

theorem ne_error_of_cons {s : String} {c : Char} {rest : List Char}
    (h : s.data = c :: rest) (hc : c ≠ 'E') :
    s ≠ "Error: Current room not found." := by
  intro he
  rw [he] at h
  have h0 : ("Error: Current room not found." : String).data =
      'E' :: ("rror: Current room not found." : String).data := rfl
  rw [h0] at h
  exact hc (List.cons.inj h).1.symm

theorem append1_ne_error (p x : String) {c : Char} {rest : List Char}
    (hp : p.data = c :: rest) (hc : c ≠ 'E') :
    p ++ x ≠ "Error: Current room not found." :=
  ne_error_of_cons (cons_data_append p x hp) hc

theorem append2_ne_error (p x q : String) {c : Char} {rest : List Char}
    (hp : p.data = c :: rest) (hc : c ≠ 'E') :
    p ++ x ++ q ≠ "Error: Current room not found." :=
  ne_error_of_cons (cons_data_append (p ++ x) q (cons_data_append p x hp)) hc

theorem lookAround_ne_error (g : Game) (r : Room)
    (hr : lookupRoom g.rooms g.player.location = some r) :
    lookAround g ≠ "Error: Current room not found." := by
  obtain ⟨post, hpost⟩ := lookAround_shape g r hr
  rw [hpost]
  exact append2_ne_error "[ " r.name post
    (show ("[ " : String).data = '[' :: (" " : String).data from rfl) (by decide)

theorem afterMove_lookup {g : Game} {target : String}
    (hkeys : g.rooms.map Prod.fst = roomNames) (htarget : target ∈ roomNames) :
    ∃ r2, lookupRoom (afterMove g target).rooms (afterMove g target).player.location = some r2 := by
  apply lookupRoom_isSome_of_mem
  rw [afterMove_rooms, afterMove_location, hkeys]
  exact htarget

theorem processCommand_ne_error {g : Game} (c : Command) (hok : StateOk g) :
    (processCommand g c).1 ≠ "Error: Current room not found." := by
  obtain ⟨hkeys, hnames, hexits, hloc⟩ := hok
  obtain ⟨r, hr⟩ := lookupRoom_isSome_of_mem
    (show g.player.location ∈ g.rooms.map Prod.fst by rw [hkeys]; exact hloc)
  cases c with
  | go d =>
      cases he : lookupExit r.exits d with
      | some target =>
          have htarget : target ∈ roomNames :=
            hexits _ (lookupRoom_mem hr) _ (lookupExit_mem he)
          obtain ⟨r2, hr2⟩ := afterMove_lookup hkeys htarget
          rw [handleGo_success hr he]
          exact lookAround_ne_error _ _ hr2
      | none =>
          simp only [processCommand, handleGo, hr, he]
          exact append2_ne_error "You can't go " d.toText " from here."
            (show ("You can't go " : String).data =
              'Y' :: ("ou can't go " : String).data from rfl) (by decide)
  | take item =>
      simp only [processCommand, handleTake, hr]
      cases hrm : removeFirst r.items item with
      | some newItems =>
          simp only [hrm]
          exact append2_ne_error "You take the " item "."
            (show ("You take the " : String).data =
              'Y' :: ("ou take the " : String).data from rfl) (by decide)
      | none =>
          simp only [hrm]
          exact append2_ne_error "There is no " item " here."
            (show ("There is no " : String).data =
              'T' :: ("here is no " : String).data from rfl) (by decide)
  | use item =>
      simp only [processCommand, handleUse]
      by_cases hhas : hasItem g.player item = true
      · simp only [hhas, if_true, hr]
        split_ifs with h1 h2 h3 h4
        · dsimp only; decide
        · dsimp only; decide
        · dsimp only; decide
        · dsimp only; decide
        · dsimp only
          exact append2_ne_error "You can't use the " item " here."
            (show ("You can't use the " : String).data =
              'Y' :: ("ou can't use the " : String).data from rfl) (by decide)
      · rw [if_neg hhas]
        dsimp only
        exact append2_ne_error "You don't have a " item "."
          (show ("You don't have a " : String).data =
            'Y' :: ("ou don't have a " : String).data from rfl) (by decide)
  | inventory =>
      simp only [processCommand, displayInventory]
      split_ifs with h
      · decide
      · exact append1_ne_error "You are carrying:\n" _
          (show ("You are carrying:\n" : String).data =
            'Y' :: ("ou are carrying:\n" : String).data from rfl) (by decide)
  | look => exact lookAround_ne_error g r hr
  | help => dsimp only [processCommand]; decide
  | quit => dsimp only [processCommand]; decide
  | unknown input =>
      dsimp only [processCommand]
      exact append2_ne_error "I don't understand '" input
        "'.\nType 'help' for a list of commands."
        (show ("I don't understand '" : String).data =
          'I' :: (" don't understand '" : String).data from rfl) (by decide)

/-- C2: starting from Game.new, after any sequence of commands the player's
location is a key of the rooms map, and consequently no command can ever
return the "Error: Current room not found." string. -/
theorem c2_location_always_valid (cs : List Command) (c : Command) :
    (lookupRoom (applyAll cs Game.new).rooms
        (applyAll cs Game.new).player.location).isSome = true ∧
      (processCommand (applyAll cs Game.new) c).1 ≠ "Error: Current room not found." := by
  have hok := stateOk_applyAll cs stateOk_new
  refine ⟨?_, processCommand_ne_error c hok⟩
  obtain ⟨hkeys, hnames, hexits, hloc⟩ := hok
  obtain ⟨r, hr⟩ := lookupRoom_isSome_of_mem
    (show (applyAll cs Game.new).player.location ∈
      (applyAll cs Game.new).rooms.map Prod.fst by rw [hkeys]; exact hloc)
  rw [hr]
  rfl

theorem removeFirst_some {items : List String} {x : String}
    (h : ∃ i ∈ items, sToLower i = sToLower x) :
    ∃ l₁ m l₂, items = l₁ ++ m :: l₂ ∧ sToLower m = sToLower x ∧
      (∀ i ∈ l₁, sToLower i ≠ sToLower x) ∧
      removeFirst items x = some (l₁ ++ l₂) := by
  induction items with
  | nil => rcases h with ⟨i, hi, _⟩; cases hi
  | cons a rest ih =>
      by_cases ha : sToLower a = sToLower x
      · refine ⟨[], a, rest, rfl, ha, ?_, ?_⟩
        · intro i hi; cases hi
        · simp [removeFirst, ha]
      · have h2 : ∃ i ∈ rest, sToLower i = sToLower x := by
          rcases h with ⟨i, hi, he⟩
          cases hi with
          | head => exact absurd he ha
          | tail _ hi2 => exact ⟨i, hi2, he⟩
        rcases ih h2 with ⟨l₁, m, l₂, heq, hm, hnone, hrf⟩
        refine ⟨a :: l₁, m, l₂, by rw [heq]; rfl, hm, ?_, ?_⟩
        · intro i hi
          cases hi with
          | head => exact ha
          | tail _ hi2 => exact hnone i hi2
        · simp [removeFirst, ha, hrf]

theorem removeFirst_none {items : List String} {x : String}
    (h : ∀ i ∈ items, sToLower i ≠ sToLower x) :
    removeFirst items x = none := by
  induction items with
  | nil => rfl
  | cons a rest ih =>
      simp only [removeFirst]
      rw [if_neg (h a (List.mem_cons_self a rest))]
      rw [ih (fun i hi => h i (List.mem_cons_of_mem a hi))]
      rfl

/-- C6: Take(x) with a case-insensitive match in the current room removes
exactly the first matching entry from the room's item list and appends x
verbatim to the inventory, returning "You take the x."; with no match the
state is unchanged and "There is no x here." is returned. -/
theorem c6_take (g : Game) (x : String) (r : Room)
    (hr : lookupRoom g.rooms g.player.location = some r) :
    ((∃ i ∈ r.items, sToLower i = sToLower x) →
       ∃ l₁ m l₂, r.items = l₁ ++ m :: l₂ ∧ sToLower m = sToLower x ∧
         (∀ i ∈ l₁, sToLower i ≠ sToLower x) ∧
         processCommand g (.take x) =
           ("You take the " ++ x ++ ".",
            { g with
                rooms := updateRoom g.rooms g.player.location { r with items := l₁ ++ l₂ }
                player := { g.player with inventory := g.player.inventory ++ [x] } })) ∧
    ((∀ i ∈ r.items, sToLower i ≠ sToLower x) →
       processCommand g (.take x) = ("There is no " ++ x ++ " here.", g)) := by
  constructor
  · intro h
    rcases removeFirst_some h with ⟨l₁, m, l₂, heq, hm, hnone, hrf⟩
    refine ⟨l₁, m, l₂, heq, hm, hnone, ?_⟩
    simp only [processCommand, handleTake, hr, hrf]
  · intro h
    have hrf := removeFirst_none h
    simp only [processCommand, handleTake, hr, hrf]

theorem c6_witness :
    (processCommand Game.new (.take "ancient map")).2.player.inventory = ["ancient map"] := by
  have h := (c6_take Game.new "ancient map" (createRooms.get ⟨0, by decide⟩).2 (by decide)).1
    ⟨"ancient map", by decide, by decide⟩
  rcases h with ⟨l₁, m, l₂, heq, hm, hnone, hpc⟩
  rw [hpc]
  rfl

/-- Command sequence from the start of the game that picks up the golden
idol and walks to the Temple Exit. -/
def idolPath : List Command :=
  [.go .north, .go .west, .take "golden idol", .go .east, .go .east, .go .north]

/-- C3 counterexample: at "Temple Exit" holding the golden idol, the
canonical casing triggers the win, but Use("Golden Idol") — which matches
the inventory case-insensitively — does not trigger the special
interaction: the dispatch on the item name is verbatim. -/
theorem c3_counterexample :
    (applyAll idolPath Game.new).player.location = "Temple Exit" ∧
    hasItem (applyAll idolPath Game.new).player "Golden Idol" = true ∧
    (processCommand (applyAll idolPath Game.new) (.use "golden idol")).2.game_over = true ∧
    (processCommand (applyAll idolPath Game.new) (.use "Golden Idol")).2.game_over = false ∧
    (processCommand (applyAll idolPath Game.new) (.use "Golden Idol")).1 =
      "You can't use the " ++ "Golden Idol" ++ " here." := by
  refine ⟨by decide, by decide, by decide, by decide, by decide⟩

/-- C3 amended: the inventory check of Use is case-insensitive, but the
special-interaction dispatch compares the item argument verbatim, so with
the idol held the terminal flag is set iff the argument is literally
"golden idol" at "Temple Exit". -/
theorem c3_amended (g : Game) (x : String) (r : Room)
    (hr : lookupRoom g.rooms g.player.location = some r)
    (hhas : hasItem g.player x = true) :
    (∀ y, sToLower y = sToLower x → hasItem g.player y = true) ∧
    ((processCommand g (.use x)).2.game_over = true ↔
      (g.game_over = true ∨ (r.name = "Temple Exit" ∧ x = "golden idol"))) := by
  constructor
  · intro y hy
    unfold hasItem at hhas ⊢
    rcases List.any_eq_true.1 hhas with ⟨i, hi, he⟩
    refine List.any_eq_true.2 ⟨i, hi, ?_⟩
    rw [beq_iff_eq] at he ⊢
    rw [he, hy]
  · simp only [processCommand, handleUse, hhas, if_true, hr]
    by_cases hcond : r.name = "Temple Exit" ∧ x = "golden idol"
    · rw [if_pos hcond]
      dsimp only
      constructor
      · intro _; exact Or.inr hcond
      · intro _; rfl
    · rw [if_neg hcond]
      split_ifs with h2 h3 h4 <;>
        ( dsimp only
          constructor
          · exact Or.inl
          · rintro (h | h)
            · exact h
            · exact absurd h hcond )

theorem c3_amended_witness :
    (processCommand (applyAll idolPath Game.new) (.use "golden idol")).2.game_over = true :=
  ((c3_amended (applyAll idolPath Game.new) "golden idol"
      (createRooms.get ⟨5, by decide⟩).2 (by decide) (by decide)).2).mpr
    (Or.inr ⟨by decide, rfl⟩)

/-- Models Rust `split_whitespace`: maximal runs of non-whitespace
characters, scanning left to right with an accumulator for the current
word (held reversed). -/
def splitWsAux : List Char → List Char → List (List Char)
  | [], acc => if acc.isEmpty then [] else [acc.reverse]
  | c :: cs, acc =>
      if c.isWhitespace then
        if acc.isEmpty then splitWsAux cs []
        else acc.reverse :: splitWsAux cs []
      else splitWsAux cs (c :: acc)

/-- Whitespace-separated words of a string. -/
def splitWhitespace (s : String) : List String :=
  (splitWsAux s.data []).map String.mk

/-- Models Rust `[&str]::join(" ")`. -/
def joinSpace : List String → String
  | [] => ""
  | [w] => w
  | w :: ws => w ++ " " ++ joinSpace ws

/-- Models `parse_command` in src/input.rs: trim, lowercase, split on
whitespace, then classify by the first word. -/
def parseCommand (input : String) : Except String Command :=
  let inp := sToLower (strTrim input)
  if inp.isEmpty then .error "Please enter a command."
  else
    match splitWhitespace inp with
    | [] => .error "Please enter a command."
    | cmd :: args =>
        if cmd = "go" ∨ cmd = "move" then
          match args with
          | [] => .error "Go where? Try 'go north', 'go east', 'go south', or 'go west'."
          | a :: _ =>
              match Direction.fromString a with
              | some d => .ok (.go d)
              | none => .error ("'" ++ a ++
                  "' is not a valid direction. Try 'north', 'east', 'south', or 'west'.")
        else if cmd = "take" ∨ cmd = "get" ∨ cmd = "pickup" then
          match args with
          | [] => .error "Take what? Please specify an item."
          | _ => .ok (.take (joinSpace args))
        else if cmd = "use" then
          match args with
          | [] => .error "Use what? Please specify an item."
          | _ => .ok (.use (joinSpace args))
        else if cmd = "inventory" ∨ cmd = "i" ∨ cmd = "inv" then .ok .inventory
        else if cmd = "look" ∨ cmd = "l" then .ok .look
        else if cmd = "help" ∨ cmd = "h" then .ok .help
        else if cmd = "quit" ∨ cmd = "exit" ∨ cmd = "q" then .ok .quit
        else .ok (.unknown inp)

theorem charOfNat_toNat {n : Nat} (h : n < 55296) : (Char.ofNat n).toNat = n := by
  have hv : n.isValidChar := Or.inl h
  simp only [Char.ofNat, hv, dif_pos]
  rfl

theorem charLower_idem (c : Char) : charLower (charLower c) = charLower c := by
  unfold charLower
  by_cases h : 65 ≤ c.toNat ∧ c.toNat ≤ 90
  · rw [if_pos h]
    have hv : (Char.ofNat (c.toNat + 32)).toNat = c.toNat + 32 :=
      charOfNat_toNat (by omega)
    rw [if_neg (by rw [hv]; omega)]
  · rw [if_neg h, if_neg h]

theorem sToLower_data (s : String) : (sToLower s).data = s.data.map charLower := rfl

theorem charLower_fixed_of_map {s : String} : ∀ c ∈ (sToLower s).data, charLower c = c := by
  rw [sToLower_data]
  intro c hc
  rcases List.mem_map.1 hc with ⟨d, _, rfl⟩
  exact charLower_idem d

theorem map_self_of_fixed {l : List Char} (h : ∀ c ∈ l, charLower c = c) :
    l.map charLower = l := by
  induction l with
  | nil => rfl
  | cons c cs ih =>
      simp only [List.map_cons]
      rw [h c (List.mem_cons_self c cs), ih (fun d hd => h d (List.mem_cons_of_mem c hd))]

theorem sToLower_eq_self {s : String} (h : ∀ c ∈ s.data, charLower c = c) :
    sToLower s = s := by
  unfold sToLower
  rw [map_self_of_fixed h]

theorem sToLower_idem (s : String) : sToLower (sToLower s) = sToLower s :=
  sToLower_eq_self charLower_fixed_of_map

theorem fixed_of_lowered {t : String} (h : sToLower t = t) : ∀ c ∈ t.data, charLower c = c := by
  intro c hc
  rw [← h] at hc
  exact charLower_fixed_of_map c hc

theorem splitWsAux_subset :
    ∀ (cs : List Char) (acc : List Char) (w : List Char), w ∈ splitWsAux cs acc →
      ∀ c ∈ w, c ∈ acc ∨ c ∈ cs := by
  intro cs
  induction cs with
  | nil =>
      intro acc w hw c hc
      simp only [splitWsAux] at hw
      split at hw
      · cases hw
      · rcases List.mem_singleton.1 hw with rfl
        exact Or.inl (List.mem_reverse.1 hc)
  | cons a rest ih =>
      intro acc w hw c hc
      simp only [splitWsAux] at hw
      split at hw
      · split at hw
        · rcases ih [] w hw c hc with h | h
          · cases h
          · exact Or.inr (List.mem_cons_of_mem a h)
        · cases hw with
          | head =>
              exact Or.inl (List.mem_reverse.1 hc)
          | tail _ hw2 =>
              rcases ih [] w hw2 c hc with h | h
              · cases h
              · exact Or.inr (List.mem_cons_of_mem a h)
      · rcases ih (a :: acc) w hw c hc with h | h
        · cases h with
          | head => exact Or.inr (List.mem_cons_self a rest)
          | tail _ h2 => exact Or.inl h2
        · exact Or.inr (List.mem_cons_of_mem a h)

theorem joinSpace_lowered {ws : List String} (h : ∀ w ∈ ws, sToLower w = w) :
    sToLower (joinSpace ws) = joinSpace ws := by
  induction ws with
  | nil => rfl
  | cons w rest ih =>
      cases rest with
      | nil => exact h w (List.mem_cons_self w [])
      | cons w2 ws2 =>
          apply sToLower_eq_self
          intro c hc
          simp only [joinSpace, String.data_append, List.mem_append] at hc
          rcases hc with (hc | hc) | hc
          · exact fixed_of_lowered (h w (List.mem_cons_self _ _)) c hc
          · have hcs : c = ' ' := by simpa using hc
            rw [hcs]; decide
          · exact fixed_of_lowered
              (ih (fun u hu => h u (List.mem_cons_of_mem _ hu))) c hc

/-- C10: parse_command lowercases the whole trimmed input before
classifying it, so every Take or Use argument and every Unknown payload it
produces is already fully lowercase. -/
theorem c10_parser_lowercases (s x : String)
    (h : parseCommand s = .ok (.take x) ∨ parseCommand s = .ok (.use x) ∨
         parseCommand s = .ok (.unknown x)) :
    sToLower x = x := by
  have hwords : ∀ w ∈ splitWhitespace (sToLower (strTrim s)), sToLower w = w := by
    intro w hw
    rcases List.mem_map.1 hw with ⟨wl, hwl, rfl⟩
    apply sToLower_eq_self
    intro c hc
    rcases splitWsAux_subset _ [] wl hwl c hc with h0 | h0
    · cases h0
    · exact charLower_fixed_of_map c h0
  simp only [parseCommand] at h
  by_cases hemp : (sToLower (strTrim s)).isEmpty = true
  · rw [if_pos hemp] at h
    rcases h with h | h | h <;> exact Except.noConfusion h
  · rw [if_neg hemp] at h
    cases hws : splitWhitespace (sToLower (strTrim s)) with
    | nil =>
        simp only [hws] at h
        rcases h with h | h | h <;> exact Except.noConfusion h
    | cons cmd args =>
        simp only [hws] at h
        have hargsmem : ∀ w ∈ args, sToLower w = w := fun w hw =>
          hwords w (by rw [hws]; exact List.mem_cons_of_mem _ hw)
        by_cases hgo : cmd = "go" ∨ cmd = "move"
        · rw [if_pos hgo] at h
          cases args with
          | nil => rcases h with h | h | h <;> exact Except.noConfusion h
          | cons a rest =>
              cases hd : Direction.fromString a with
              | some d =>
                  simp only [hd] at h
                  rcases h with h | h | h <;> simp at h
              | none =>
                  simp only [hd] at h
                  rcases h with h | h | h <;> exact Except.noConfusion h
        · rw [if_neg hgo] at h
          by_cases htk : cmd = "take" ∨ cmd = "get" ∨ cmd = "pickup"
          · rw [if_pos htk] at h
            cases args with
            | nil => rcases h with h | h | h <;> exact Except.noConfusion h
            | cons a rest =>
                rcases h with h | h | h
                · have hx : joinSpace (a :: rest) = x := by
                    injection h with h2
                    injection h2
                  rw [← hx]
                  exact joinSpace_lowered hargsmem
                · simp at h
                · simp at h
          · rw [if_neg htk] at h
            by_cases hus : cmd = "use"
            · rw [if_pos hus] at h
              cases args with
              | nil => rcases h with h | h | h <;> exact Except.noConfusion h
              | cons a rest =>
                  rcases h with h | h | h
                  · simp at h
                  · have hx : joinSpace (a :: rest) = x := by
                      injection h with h2
                      injection h2
                    rw [← hx]
                    exact joinSpace_lowered hargsmem
                  · simp at h
            · rw [if_neg hus] at h
              by_cases hin : cmd = "inventory" ∨ cmd = "i" ∨ cmd = "inv"
              · rw [if_pos hin] at h
                rcases h with h | h | h <;> simp at h
              · rw [if_neg hin] at h
                by_cases hlk : cmd = "look" ∨ cmd = "l"
                · rw [if_pos hlk] at h
                  rcases h with h | h | h <;> simp at h
                · rw [if_neg hlk] at h
                  by_cases hhp : cmd = "help" ∨ cmd = "h"
                  · rw [if_pos hhp] at h
                    rcases h with h | h | h <;> simp at h
                  · rw [if_neg hhp] at h
                    by_cases hq : cmd = "quit" ∨ cmd = "exit" ∨ cmd = "q"
                    · rw [if_pos hq] at h
                      rcases h with h | h | h <;> simp at h
                    · rw [if_neg hq] at h
                      rcases h with h | h | h
                      · simp at h
                      · simp at h
                      · have hx : sToLower (strTrim s) = x := by
                          injection h with h2
                          injection h2
                        rw [← hx]
                        exact sToLower_idem _

theorem c10_witness : sToLower "golden idol" = "golden idol" :=
  c10_parser_lowercases "  TAKE Golden IDOL  " "golden idol" (Or.inl (by rfl))

end Temple
